import Mathlib

/-!
Verification of the SSE event-stream decoder and HTTP client glue of
abatilo/ghmodelsproxy.

The embedding works at the level the Go code works at: a stream is the list
of lines the bufio.Scanner yields (each line a list of characters), followed
by the scanner's final status (clean closure, or an I/O error).  The JSON
decoder (encoding/json's Unmarshal) is external to the repository, so it is a
parameter of the model: a function from the raw field value to either a
decoded value of the payload type T or an error message.
-/

/-- Whitespace as Go's unicode.IsSpace accepts it (the rune set trimmed by
strings.TrimSpace): tab, LF, VT, FF, CR, space, NEL, NBSP, and the
White_Space code points outside Latin-1. -/
def isSpace (c : Char) : Bool :=
  c.toNat == 0x09 || c.toNat == 0x0A || c.toNat == 0x0B || c.toNat == 0x0C ||
  c.toNat == 0x0D || c.toNat == 0x20 || c.toNat == 0x85 || c.toNat == 0xA0 ||
  c.toNat == 0x1680 || (0x2000 ≤ c.toNat && c.toNat ≤ 0x200A) ||
  c.toNat == 0x2028 || c.toNat == 0x2029 || c.toNat == 0x202F ||
  c.toNat == 0x205F || c.toNat == 0x3000

/-- Go strings.TrimSpace: drop leading and trailing whitespace runes. -/
def trimSpace (s : List Char) : List Char :=
  ((s.dropWhile isSpace).reverse.dropWhile isSpace).reverse

/-- Go strings.Contains(line, ":"): the line holds a colon character. -/
def containsColon (s : List Char) : Bool :=
  s.contains ':'

/-- Go strings.SplitN(line, ":", 2) for a line that contains a colon:
everything before the first colon, and everything after it. -/
def splitFirstColon (s : List Char) : List Char × List Char :=
  (s.takeWhile (fun c => c != ':'), (s.dropWhile (fun c => c != ':')).drop 1)

/-- The outcome of one call to EventReader.Read (src/unnamed/part_000 lines
295-329).  value carries a decoded T (nil error in Go); eof is io.EOF, the
clean end-of-stream sentinel; decodeError is the error json.Unmarshal
returned; eventTypeError carries the message built by errors.New for a
non-data field; incompleteStream is errors.New of "incomplete stream";
sourceError is the scanner's own error, surfaced unchanged. -/
inductive ReadResult (T : Type) where
  | value (v : T)
  | eof
  | decodeError (e : String)
  | eventTypeError (msg : List Char)
  | incompleteStream
  | sourceError (e : String)
deriving DecidableEq

/-- What Read returns once the scan is over (src/unnamed/part_000 lines
322-328): scanner.Err() == nil means the source closed cleanly, reported as
the "incomplete stream" error; otherwise the scanner's error is surfaced. -/
def EventReader.endResult (T : Type) : Option String → ReadResult T
  | none => ReadResult.incompleteStream
  | some e => ReadResult.sourceError e

/-- The field-processing branch of Read (src/unnamed/part_000 lines
304-317): split the line at its first colon, trim both tokens; for field
name "data", value "[DONE]" is io.EOF and anything else goes through the
decoder; any other field name is the "unexpected event type" error. -/
def EventReader.processField (decode : List Char → Except String T)
    (line : List Char) : ReadResult T :=
  if trimSpace (splitFirstColon line).1 = "data".toList then
    if trimSpace (splitFirstColon line).2 = "[DONE]".toList then
      ReadResult.eof
    else
      match decode (trimSpace (splitFirstColon line).2) with
      | Except.ok v => ReadResult.value v
      | Except.error e => ReadResult.decodeError e
  else
    ReadResult.eventTypeError
      ("unexpected event type: ".toList ++ trimSpace (splitFirstColon line).1)

/-- EventReader.Read (src/unnamed/part_000 lines 295-329) over the remaining
lines of the stream and the scanner's final status: blank lines and lines
whose first character is a colon are skipped, a line containing a colon is
processed as a field and consumed, a remaining line with no colon is skipped
(the for loop continues), and an exhausted scan yields endResult.  Returns
the call's outcome and the lines left for the next call. -/
def EventReader.Read (decode : List Char → Except String T) :
    List (List Char) → Option String → ReadResult T × List (List Char)
  | [], se => (EventReader.endResult T se, [])
  | line :: rest, se =>
    if line = [] ∨ line.head? = some ':' then
      EventReader.Read decode rest se
    else if containsColon line then
      (EventReader.processField decode line, rest)
    else
      EventReader.Read decode rest se

/-- The outcomes of n successive calls to Read, threading the remaining
lines from call to call. -/
def EventReader.readN (decode : List Char → Except String T) :
    Nat → List (List Char) → Option String → List (ReadResult T)
  | 0, _, _ => []
  | n + 1, lines, se =>
    (EventReader.Read decode lines se).1 ::
      EventReader.readN decode n (EventReader.Read decode lines se).2 se

/-- A data line as the wire format writes it: the field name, a colon, a
space, then the payload. -/
def dataLine (p : List Char) : List Char :=
  "data: ".toList ++ p

/-- A line the scan loop of Read passes over without returning: blank,
comment, or containing no colon at all. -/
def skippedLine (line : List Char) : Prop :=
  line = [] ∨ line.head? = some ':' ∨ containsColon line = false

instance (line : List Char) : Decidable (skippedLine line) :=
  inferInstanceAs (Decidable (_ ∨ _ ∨ _))

/-- One stream is another with blank lines and comment lines (first
character a colon) inserted at arbitrary positions. -/
inductive InsertSkippable : List (List Char) → List (List Char) → Prop
  | nil : InsertSkippable [] []
  | keep (x : List Char) {l l' : List (List Char)} :
      InsertSkippable l l' → InsertSkippable (x :: l) (x :: l')
  | insert (s : List Char) {l l' : List (List Char)} :
      s = [] ∨ s.head? = some ':' →
      InsertSkippable l l' → InsertSkippable l (s :: l')

/-- A chat message as src/main.go declares it (content and role). -/
structure ChatMessage where
  content : Option String
  role : String

/-- ChatCompletionOptions (src/main.go lines 45-49): the request payload
GetChatCompletionStream marshals. -/
structure ChatCompletionOptions where
  messages : List ChatMessage
  model : String
  stream : Bool

/-- The mutation GetChatCompletionStream applies to its request before
marshaling (src/main.go lines 106-112): the o1-family models get
Stream = false, every other model gets Stream = true. -/
def getChatCompletionStreamRequest (req : ChatCompletionOptions) :
    ChatCompletionOptions :=
  if req.model = "o1-mini" ∨ req.model = "o1-preview" ∨ req.model = "o1" then
    { req with stream := false }
  else
    { req with stream := true }

/-- handleHTTPError (src/main.go lines 155-198): the message built from the
response's status code, status line (Go's resp.Status) and fully read body.
The switch writes a phrase keyed by the code, then a non-empty body is
appended between newlines. -/
def handleHTTPError (statusCode : Nat) (status body : List Char) :
    List Char :=
  (if statusCode = 401 then "unauthorized".toList
   else if statusCode = 400 then "bad request".toList
   else "unexpected response from the server: ".toList ++ status) ++
  (if 0 < body.length then '\n' :: (body ++ ['\n']) else [])

/-- A message begins with a given phrase. -/
def beginsWith (p s : List Char) : Prop :=
  s.take p.length = p

instance (p s : List Char) : Decidable (beginsWith p s) :=
  inferInstanceAs (Decidable (_ = _))

/-- A concrete stand-in for json.Unmarshal in witnesses: a single digit
decodes to its value, the empty input fails the way encoding/json fails on
empty input, anything else is an invalid value. -/
def digitDecoder : List Char → Except String Nat
  | [c] =>
    if c.isDigit then Except.ok (c.toNat - 48)
    else Except.error "invalid JSON value"
  | _ => Except.error "unexpected end of JSON input"

theorem EventReader.Read_nil (decode : List Char → Except String T)
    (se : Option String) :
    EventReader.Read decode [] se = (EventReader.endResult T se, []) := rfl

theorem EventReader.Read_cons_skip (decode : List Char → Except String T)
    (line : List Char) (rest : List (List Char)) (se : Option String)
    (h : line = [] ∨ line.head? = some ':') :
    EventReader.Read decode (line :: rest) se =
      EventReader.Read decode rest se := by
  simp only [EventReader.Read]
  rw [if_pos h]

theorem EventReader.Read_cons_field (decode : List Char → Except String T)
    (line : List Char) (rest : List (List Char)) (se : Option String)
    (h1 : ¬(line = [] ∨ line.head? = some ':'))
    (h2 : containsColon line = true) :
    EventReader.Read decode (line :: rest) se =
      (EventReader.processField decode line, rest) := by
  simp only [EventReader.Read]
  rw [if_neg h1, if_pos h2]

theorem EventReader.Read_cons_noColon (decode : List Char → Except String T)
    (line : List Char) (rest : List (List Char)) (se : Option String)
    (h1 : ¬(line = [] ∨ line.head? = some ':'))
    (h2 : containsColon line = false) :
    EventReader.Read decode (line :: rest) se =
      EventReader.Read decode rest se := by
  simp only [EventReader.Read]
  rw [if_neg h1, if_neg (by simp [h2])]

theorem EventReader.readN_succ (decode : List Char → Except String T)
    (n : Nat) (lines : List (List Char)) (se : Option String) :
    EventReader.readN decode (n + 1) lines se =
      (EventReader.Read decode lines se).1 ::
        EventReader.readN decode n (EventReader.Read decode lines se).2 se :=
  rfl

theorem trimSpace_space_cons (b : List Char) :
    trimSpace (' ' :: b) = trimSpace b := by
  simp [trimSpace, List.dropWhile_cons, show isSpace ' ' = true from rfl]

theorem containsColon_dataLine (p : List Char) :
    containsColon (dataLine p) = true := rfl

theorem splitFirstColon_dataLine (p : List Char) :
    splitFirstColon (dataLine p) = ("data".toList, ' ' :: p) := rfl

theorem dataLine_head (p : List Char) : (dataLine p).head? = some 'd' := rfl

theorem dataLine_not_skipped (p : List Char) :
    ¬(dataLine p = [] ∨ (dataLine p).head? = some ':') := by
  intro h
  rcases h with h | h
  · have h2 := congrArg List.head? h
    rw [dataLine_head] at h2
    exact Option.noConfusion h2
  · rw [dataLine_head] at h
    exact absurd (Option.some.inj h) (by decide)

theorem processField_dataLine (decode : List Char → Except String T)
    (p : List Char) :
    EventReader.processField decode (dataLine p) =
      (if trimSpace p = "[DONE]".toList then ReadResult.eof
       else
         match decode (trimSpace p) with
         | Except.ok v => ReadResult.value v
         | Except.error e => ReadResult.decodeError e) := by
  simp only [EventReader.processField, splitFirstColon_dataLine,
    trimSpace_space_cons]
  rw [if_pos (show trimSpace "data".toList = "data".toList from rfl)]

theorem EventReader.Read_dataLine (decode : List Char → Except String T)
    (p : List Char) (rest : List (List Char)) (se : Option String) :
    EventReader.Read decode (dataLine p :: rest) se =
      ((if trimSpace p = "[DONE]".toList then ReadResult.eof
        else
          match decode (trimSpace p) with
          | Except.ok v => ReadResult.value v
          | Except.error e => ReadResult.decodeError e), rest) := by
  rw [EventReader.Read_cons_field decode _ rest se (dataLine_not_skipped p)
    (containsColon_dataLine p), processField_dataLine]
theorem EventReader.readN_data_block (decode : List Char → Except String T)
    (ps : List (List Char)) (vs : List T)
    (h : List.Forall₂
      (fun p v => trimSpace p ≠ "[DONE]".toList ∧
        decode (trimSpace p) = Except.ok v) ps vs)
    (k : Nat) (rest : List (List Char)) (se : Option String) :
    EventReader.readN decode (ps.length + k) (ps.map dataLine ++ rest) se =
      vs.map ReadResult.value ++ EventReader.readN decode k rest se := by
  induction h with
  | nil => simp
  | cons hpv htail ih =>
    rename_i p v ps' vs'
    have hlen : (p :: ps').length + k = (ps'.length + k) + 1 := by
      simp [List.length_cons]
      omega
    rw [hlen, List.map_cons, List.cons_append, EventReader.readN_succ,
      EventReader.Read_dataLine, if_neg hpv.1, hpv.2]
    simpa using ih

/-- Claim C1: for every well-formed stream of N data lines whose payloads
decode successfully, followed by a data [DONE] line, successive calls to
Read return exactly the N decoded values in input order, and the (N+1)th
call returns the clean end-of-stream signal with no error content. -/
theorem read_wellFormed_stream (decode : List Char → Except String T)
    (ps : List (List Char)) (vs : List T)
    (h : List.Forall₂
      (fun p v => trimSpace p ≠ "[DONE]".toList ∧
        decode (trimSpace p) = Except.ok v) ps vs) :
    EventReader.readN decode (ps.length + 1)
        (ps.map dataLine ++ [dataLine "[DONE]".toList]) none =
      vs.map ReadResult.value ++ [ReadResult.eof] := by
  rw [EventReader.readN_data_block decode ps vs h 1 _ none]
  rfl

/-- Witness for C1: a two-value stream returns both values then eof. -/
theorem read_wellFormed_stream_witness :
    EventReader.readN digitDecoder 3
        [dataLine "1".toList, dataLine "2".toList, dataLine "[DONE]".toList]
        none =
      [ReadResult.value 1, ReadResult.value 2, ReadResult.eof] := by
  have h := read_wellFormed_stream digitDecoder ["1".toList, "2".toList] [1, 2]
    (List.Forall₂.cons ⟨by decide, rfl⟩
      (List.Forall₂.cons ⟨by decide, rfl⟩ List.Forall₂.nil))
  simpa using h

/-- Claim C6: a data line whose value fails to decode yields the decoder's
error on the call that reaches it, and the values decoded by the earlier
calls are unaffected by that failure. -/
theorem read_decode_error_after_values (decode : List Char → Except String T)
    (ps : List (List Char)) (vs : List T)
    (h : List.Forall₂
      (fun p v => trimSpace p ≠ "[DONE]".toList ∧
        decode (trimSpace p) = Except.ok v) ps vs)
    (q : List Char) (e : String)
    (hq : trimSpace q ≠ "[DONE]".toList)
    (he : decode (trimSpace q) = Except.error e)
    (rest : List (List Char)) (se : Option String) :
    EventReader.readN decode (ps.length + 1)
        (ps.map dataLine ++ (dataLine q :: rest)) se =
      vs.map ReadResult.value ++ [ReadResult.decodeError e] := by
  rw [EventReader.readN_data_block decode ps vs h 1 _ se]
  congr 1
  rw [EventReader.readN_succ, EventReader.Read_dataLine, if_neg hq, he]
  rfl

/-- Witness for C6: a good value then a malformed one. -/
theorem read_decode_error_after_values_witness :
    EventReader.readN digitDecoder 2
        [dataLine "1".toList, dataLine "x".toList] none =
      [ReadResult.value 1, ReadResult.decodeError "invalid JSON value"] := by
  have h := read_decode_error_after_values digitDecoder ["1".toList] [1]
    (List.Forall₂.cons ⟨by decide, rfl⟩ List.Forall₂.nil)
    "x".toList "invalid JSON value" (by decide) rfl [] none
  simpa using h

/-- Inserting skippable lines leaves one Read call's outcome unchanged and
keeps the remaining streams related. -/
theorem EventReader.Read_insertSkippable (decode : List Char → Except String T)
    {l l' : List (List Char)} (h : InsertSkippable l l') (se : Option String) :
    (EventReader.Read decode l' se).1 = (EventReader.Read decode l se).1 ∧
      InsertSkippable (EventReader.Read decode l se).2
        (EventReader.Read decode l' se).2 := by
  induction h with
  | nil => exact ⟨rfl, InsertSkippable.nil⟩
  | keep x hrel ih =>
    rename_i m m'
    by_cases hskip : x = [] ∨ x.head? = some ':'
    · rw [EventReader.Read_cons_skip decode x m se hskip,
        EventReader.Read_cons_skip decode x m' se hskip]
      exact ih
    · by_cases hcol : containsColon x
      · rw [EventReader.Read_cons_field decode x m se hskip hcol,
          EventReader.Read_cons_field decode x m' se hskip hcol]
        exact ⟨rfl, hrel⟩
      · rw [EventReader.Read_cons_noColon decode x m se hskip
          (Bool.not_eq_true _ ▸ hcol),
          EventReader.Read_cons_noColon decode x m' se hskip
          (Bool.not_eq_true _ ▸ hcol)]
        exact ih
  | insert s hs hrel ih =>
    rename_i m m'
    rw [EventReader.Read_cons_skip decode s m' se hs]
    exact ih

/-- Claim C2: inserting blank lines and comment lines at any positions does
not change the outcome of any number of successive Read calls: no inserted
line produces a value, and the order of the decoded values is unchanged. -/
theorem read_insert_blank_comment (decode : List Char → Except String T)
    {l l' : List (List Char)} (h : InsertSkippable l l') (k : Nat)
    (se : Option String) :
    EventReader.readN decode k l' se = EventReader.readN decode k l se := by
  induction k generalizing l l' with
  | zero => rfl
  | succ n ih =>
    obtain ⟨h1, h2⟩ := EventReader.Read_insertSkippable decode h se
    rw [EventReader.readN_succ, EventReader.readN_succ, h1, ih h2]

/-- Witness for C2: a blank line and a comment line inserted around a data
line leave two reads unchanged. -/
theorem read_insert_blank_comment_witness :
    EventReader.readN digitDecoder 2
        [[], dataLine "7".toList, ": keep-alive".toList,
          dataLine "[DONE]".toList] none =
      EventReader.readN digitDecoder 2
        [dataLine "7".toList, dataLine "[DONE]".toList] none := by
  have h := read_insert_blank_comment digitDecoder
    (InsertSkippable.insert [] (Or.inl rfl)
      (InsertSkippable.keep (dataLine "7".toList)
        (InsertSkippable.insert (": keep-alive".toList) (Or.inr rfl)
          (InsertSkippable.keep (dataLine "[DONE]".toList)
            InsertSkippable.nil)))) 2 none
  exact h

theorem containsColon_eq_false_iff (s : List Char) :
    containsColon s = false ↔ ':' ∉ s := by
  simp [containsColon]

theorem splitFirstColon_append (a b : List Char) (h : ':' ∉ a) :
    splitFirstColon (a ++ ':' :: b) = (a, b) := by
  induction a with
  | nil => rfl
  | cons c cs ih =>
    have hc : c ≠ ':' := by
      rintro rfl
      exact h (List.mem_cons_self _ _)
    have hcs : ':' ∉ cs := fun hm => h (List.mem_cons_of_mem c hm)
    have ih' := ih hcs
    rw [Prod.ext_iff] at ih' ⊢
    simp only [splitFirstColon, List.cons_append, List.takeWhile_cons,
      List.dropWhile_cons, bne_iff_ne, ne_eq, hc, not_false_eq_true,
      if_true, reduceIte] at ih' ⊢
    exact ⟨by rw [ih'.1], ih'.2⟩

theorem colonLine_not_skipped (a b : List Char) (hne : a ≠ [])
    (ha : ':' ∉ a) :
    ¬(a ++ ':' :: b = [] ∨ (a ++ ':' :: b).head? = some ':') := by
  cases a with
  | nil => exact absurd rfl hne
  | cons c cs =>
    have hc : c ≠ ':' := by
      rintro rfl
      exact ha (List.mem_cons_self _ _)
    rintro (h | h)
    · exact List.noConfusion h
    · exact hc (Option.some.inj h)

theorem containsColon_colonLine (a b : List Char) :
    containsColon (a ++ ':' :: b) = true := by
  simp [containsColon]

theorem EventReader.Read_colonLine (decode : List Char → Except String T)
    (a b : List Char) (rest : List (List Char)) (se : Option String)
    (hne : a ≠ []) (ha : ':' ∉ a) :
    EventReader.Read decode ((a ++ ':' :: b) :: rest) se =
      (EventReader.processField decode (a ++ ':' :: b), rest) :=
  EventReader.Read_cons_field decode _ rest se
    (colonLine_not_skipped a b hne ha) (containsColon_colonLine a b)

theorem processField_colonLine (decode : List Char → Except String T)
    (a b : List Char) (ha : ':' ∉ a) :
    EventReader.processField decode (a ++ ':' :: b) =
      (if trimSpace a = "data".toList then
        (if trimSpace b = "[DONE]".toList then ReadResult.eof
         else
           match decode (trimSpace b) with
           | Except.ok v => ReadResult.value v
           | Except.error e => ReadResult.decodeError e)
       else
         ReadResult.eventTypeError
           ("unexpected event type: ".toList ++ trimSpace a)) := by
  simp only [EventReader.processField, splitFirstColon_append a b ha]

/-- Claim C3: a non-blank, non-comment line is split at its first colon
with both sides trimmed of surrounding whitespace, and when the trimmed
field name is data and the trimmed field value is [DONE], Read returns the
normal end-of-stream signal with no error content. -/
theorem read_done_line (decode : List Char → Except String T)
    (a b : List Char) (rest : List (List Char)) (se : Option String)
    (ha : containsColon a = false)
    (hname : trimSpace a = "data".toList)
    (hval : trimSpace b = "[DONE]".toList) :
    EventReader.Read decode ((a ++ ':' :: b) :: rest) se =
      (ReadResult.eof, rest) := by
  have ha' : ':' ∉ a := (containsColon_eq_false_iff a).mp ha
  have hne : a ≠ [] := by
    rintro rfl
    exact absurd hname (by decide)
  rw [EventReader.Read_colonLine decode a b rest se hne ha',
    processField_colonLine decode a b ha', if_pos hname, if_pos hval]

/-- Witness for C3: the line data and [DONE] padded with spaces terminates
the stream cleanly. -/
theorem read_done_line_witness :
    EventReader.Read digitDecoder ["data:   [DONE]  ".toList] none =
      (ReadResult.eof, []) := by
  have h := read_done_line digitDecoder "data".toList "   [DONE]  ".toList
    [] none (by decide) (by decide) (by decide)
  exact h

/-- Claim C5: a field line whose trimmed field name is anything other than
data makes Read fail with the unexpected-event-type error carrying that
field name. -/
theorem read_unexpected_event (decode : List Char → Except String T)
    (a b : List Char) (rest : List (List Char)) (se : Option String)
    (ha : containsColon a = false) (hne : a ≠ [])
    (hname : trimSpace a ≠ "data".toList) :
    EventReader.Read decode ((a ++ ':' :: b) :: rest) se =
      (ReadResult.eventTypeError
        ("unexpected event type: ".toList ++ trimSpace a), rest) := by
  have ha' : ':' ∉ a := (containsColon_eq_false_iff a).mp ha
  rw [EventReader.Read_colonLine decode a b rest se hne ha',
    processField_colonLine decode a b ha', if_neg hname]

/-- Witness for C5: the line event and ping yields the error naming the
event field. -/
theorem read_unexpected_event_witness :
    EventReader.Read digitDecoder ["event: ping".toList] none =
      (ReadResult.eventTypeError "unexpected event type: event".toList,
        []) := by
  have h := read_unexpected_event digitDecoder "event".toList " ping".toList
    [] none (by decide) (by decide) (by decide)
  exact h

/-- Claim C9: a non-blank line that does not begin with a colon and
contains no colon at all is silently skipped: the Read call behaves exactly
as it does on the remaining lines, returning neither a value nor an error
for that line. -/
theorem read_skips_colonless_line (decode : List Char → Except String T)
    (line : List Char) (rest : List (List Char)) (se : Option String)
    (h1 : line ≠ []) (h2 : line.head? ≠ some ':')
    (h3 : containsColon line = false) :
    EventReader.Read decode (line :: rest) se =
      EventReader.Read decode rest se :=
  EventReader.Read_cons_noColon decode line rest se
    (by rintro (h | h); exact h1 h; exact h2 h) h3

/-- Witness for C9: a colonless line before a data line is passed over. -/
theorem read_skips_colonless_line_witness :
    EventReader.Read digitDecoder
        ["no colon here".toList, dataLine "5".toList] none =
      EventReader.Read digitDecoder [dataLine "5".toList] none := by
  have h := read_skips_colonless_line digitDecoder "no colon here".toList
    [dataLine "5".toList] none (by decide) (by decide) (by decide)
  exact h

/-- Claim C10: a data line whose value is empty after trimming is handed to
the JSON decoder, which fails on empty input, so Read returns that decode
error: the line is neither skipped nor treated as end-of-stream. -/
theorem read_empty_data_value (decode : List Char → Except String T)
    (a b : List Char) (rest : List (List Char)) (se : Option String)
    (e : String) (ha : containsColon a = false)
    (hname : trimSpace a = "data".toList) (hval : trimSpace b = [])
    (he : decode [] = Except.error e) :
    EventReader.Read decode ((a ++ ':' :: b) :: rest) se =
      (ReadResult.decodeError e, rest) := by
  have ha' : ':' ∉ a := (containsColon_eq_false_iff a).mp ha
  have hne : a ≠ [] := by
    rintro rfl
    exact absurd hname (by decide)
  rw [EventReader.Read_colonLine decode a b rest se hne ha',
    processField_colonLine decode a b ha', if_pos hname, hval,
    if_neg (show ¬([] : List Char) = "[DONE]".toList by decide), he]

/-- Witness for C10: the bare line data-colon produces the decoder's
empty-input error. -/
theorem read_empty_data_value_witness :
    EventReader.Read digitDecoder ["data:".toList] none =
      (ReadResult.decodeError "unexpected end of JSON input", []) := by
  have h := read_empty_data_value digitDecoder "data".toList [] [] none
    "unexpected end of JSON input" (by decide) (by decide) (by decide) rfl
  exact h

/-- Claim C4: when the scan runs out of lines without a [DONE] marker, the
observing Read call reports the incomplete-stream error if the source
closed cleanly, and surfaces the source's own error unchanged if the source
failed; it never returns a silent end-of-stream. -/
theorem read_end_without_done (decode : List Char → Except String T)
    (lines : List (List Char)) (h : ∀ l ∈ lines, skippedLine l) :
    EventReader.Read decode lines none =
        (ReadResult.incompleteStream, []) ∧
      ∀ e, EventReader.Read decode lines (some e) =
        (ReadResult.sourceError e, []) := by
  induction lines with
  | nil => exact ⟨rfl, fun _ => rfl⟩
  | cons l ls ih =>
    have hl := h l (List.mem_cons_self _ _)
    have ih' := ih fun x hx => h x (List.mem_cons_of_mem l hx)
    by_cases hskip : l = [] ∨ l.head? = some ':'
    · refine ⟨?_, fun e => ?_⟩
      · rw [EventReader.Read_cons_skip decode l ls none hskip]
        exact ih'.1
      · rw [EventReader.Read_cons_skip decode l ls (some e) hskip]
        exact ih'.2 e
    · have hcol : containsColon l = false := by
        rcases hl with h1 | h2 | h3
        · exact absurd (Or.inl h1) hskip
        · exact absurd (Or.inr h2) hskip
        · exact h3
      refine ⟨?_, fun e => ?_⟩
      · rw [EventReader.Read_cons_noColon decode l ls none hskip hcol]
        exact ih'.1
      · rw [EventReader.Read_cons_noColon decode l ls (some e) hskip hcol]
        exact ih'.2 e

/-- Witness for C4: a stream of a blank line, a comment and a colonless
line ends in the incomplete-stream error on clean closure and surfaces the
source error otherwise. -/
theorem read_end_without_done_witness :
    (EventReader.Read digitDecoder
        [[], ": ping".toList, "noise".toList] none =
      (ReadResult.incompleteStream, [])) ∧
    (EventReader.Read digitDecoder
        [[], ": ping".toList, "noise".toList] (some "connection reset") =
      (ReadResult.sourceError "connection reset", [])) := by
  have h := read_end_without_done digitDecoder
    [[], ": ping".toList, "noise".toList] (by decide)
  exact ⟨h.1, h.2 "connection reset"⟩

/-- Claim C7: the outgoing request of GetChatCompletionStream carries
stream = false exactly for the models o1, o1-mini and o1-preview, and
stream = true for every other model, whatever flag the caller supplied. -/
theorem getChatCompletionStream_flag (req : ChatCompletionOptions) :
    ((req.model = "o1" ∨ req.model = "o1-mini" ∨ req.model = "o1-preview") →
      (getChatCompletionStreamRequest req).stream = false) ∧
    (¬(req.model = "o1" ∨ req.model = "o1-mini" ∨
        req.model = "o1-preview") →
      (getChatCompletionStreamRequest req).stream = true) ∧
    (∀ b : Bool,
      getChatCompletionStreamRequest { req with stream := b } =
        getChatCompletionStreamRequest req) := by
  refine ⟨fun h => ?_, fun h => ?_, fun b => ?_⟩
  · rw [getChatCompletionStreamRequest, if_pos (by tauto)]
  · rw [getChatCompletionStreamRequest, if_neg (by tauto)]
  · by_cases h : req.model = "o1-mini" ∨ req.model = "o1-preview" ∨
      req.model = "o1"
    · rw [getChatCompletionStreamRequest, getChatCompletionStreamRequest,
        if_pos h]
    · rw [getChatCompletionStreamRequest, getChatCompletionStreamRequest,
        if_neg h]

theorem beginsWith_append (p t : List Char) : beginsWith p (p ++ t) := by
  simp [beginsWith, List.take_left]

/-- Counterexample for C8 as stated: for status 500 with status line 500
Internal Server Error and an empty body, the message does not begin with
the raw status line (it begins with the fixed phrase instead). -/
theorem handleHTTPError_counterexample :
    ¬ beginsWith "500 Internal Server Error".toList
      (handleHTTPError 500 "500 Internal Server Error".toList []) := by
  decide

/-- Claim C8 as amended: the message begins with unauthorized for 401, with
bad request for 400, and with the fixed phrase unexpected response from the
server followed by the raw status line for any other status; when the body
is non-empty the message continues with a newline, the raw body, and a
trailing newline. -/
theorem handleHTTPError_message (statusCode : Nat)
    (status body : List Char) :
    (statusCode = 401 →
      beginsWith "unauthorized".toList
        (handleHTTPError statusCode status body)) ∧
    (statusCode = 400 →
      beginsWith "bad request".toList
        (handleHTTPError statusCode status body)) ∧
    (statusCode ≠ 401 → statusCode ≠ 400 →
      beginsWith ("unexpected response from the server: ".toList ++ status)
        (handleHTTPError statusCode status body)) ∧
    (body ≠ [] →
      handleHTTPError statusCode status body =
        handleHTTPError statusCode status [] ++
          '\n' :: (body ++ ['\n'])) := by
  refine ⟨fun h => ?_, fun h => ?_, fun h1 h2 => ?_, fun hb => ?_⟩
  · subst h
    rw [handleHTTPError, if_pos rfl]
    exact beginsWith_append _ _
  · subst h
    rw [handleHTTPError, if_neg (by decide), if_pos rfl]
    exact beginsWith_append _ _
  · rw [handleHTTPError, if_neg h1, if_neg h2]
    exact beginsWith_append _ _
  · rw [handleHTTPError, handleHTTPError,
      if_pos (List.length_pos.mpr hb),
      if_neg (show ¬0 < ([] : List Char).length by decide)]
    simp
